import Mathlib

/-!
Shallow embedding of the scatfit pulse-model library (`scatfit/pulsemodels.py`)
and of the per-sub-band fitting procedure (`scatfit/apps/fit_frb.py`).

Arrays are modelled as `List ℝ`; numpy float arithmetic is modelled by exact
real arithmetic.  Elementwise numpy operations become `List.map`, boolean-mask
assignments become pointwise `if` expressions, and `scipy.signal.oaconvolve`
with `mode="same"` becomes the centred slice of the full discrete linear
convolution.  Fallible code (`raise RuntimeError`) is modelled with `Except`.
-/

noncomputable section

open scoped BigOperators

/-- The complementary error function, modelled by its defining integral.  Only
its role as a fixed real function matters for the theorems below. -/
def erfc (z : ℝ) : ℝ :=
  2 / Real.sqrt Real.pi * ∫ t in Set.Ioi z, Real.exp (-t ^ 2)

/-- Embedding of `pulsemodels.gaussian_normed`. -/
def gaussian_normed (x : List ℝ) (fluence center sigma : ℝ) : List ℝ :=
  x.map (fun xi =>
    fluence / (sigma * Real.sqrt (2 * Real.pi)) *
      Real.exp (-0.5 * ((xi - center) / sigma) ^ 2))

/-- Embedding of `pulsemodels.scattered_gaussian_pulse`: the analytic
exponentially modified Gaussian, with the `invK >= 10` Gaussian fallback and
the `argexp >= 300` overflow clamp of the source. -/
def scattered_gaussian_pulse (x : List ℝ) (fluence center sigma taus dc : ℝ) : List ℝ :=
  let invsigma : ℝ := 1 / sigma
  let K : ℝ := taus * invsigma
  let invK : ℝ := 1 / K
  if 10 ≤ invK then
    (gaussian_normed x fluence center sigma).map (fun g => dc + g)
  else
    x.map (fun xi =>
      let y : ℝ := (xi - center) * invsigma
      let argexp : ℝ := 0.5 * invK ^ 2 - y * invK
      let argclamped : ℝ := if 300 ≤ argexp then 0 else argexp
      dc + fluence *
        (0.5 * invK * invsigma * Real.exp argclamped *
          erfc (-(y - invK) / Real.sqrt 2)))

/-- Embedding of `pulsemodels.gaussian_scattered_afb_instrumental`
(McKinnon 2014 Eq. 7): three-term weighted combination of analytic scattered
Gaussians with timescales `taus`, `taui`, `taud`. -/
def gaussian_scattered_afb_instrumental
    (x : List ℝ) (fluence center sigma taus taui taud dc : ℝ) : List ℝ :=
  let A := (scattered_gaussian_pulse x fluence center sigma taus 0).map
    (fun v => taus ^ 2 * v / ((taus - taui) * (taus - taud)))
  let B := (scattered_gaussian_pulse x fluence center sigma taui 0).map
    (fun v => taui ^ 2 * v / ((taus - taui) * (taui - taud)))
  let C := (scattered_gaussian_pulse x fluence center sigma taud 0).map
    (fun v => taud ^ 2 * v / ((taus - taud) * (taui - taud)))
  (List.range x.length).map (fun j => dc + A.getD j 0 - B.getD j 0 + C.getD j 0)

/-- Embedding of `pulsemodels.boxcar`. -/
def boxcar (x : List ℝ) (width : ℝ) : List ℝ :=
  x.map (fun xi => if |xi| ≤ 0.5 * width then (1 : ℝ) else 0)

/-- Embedding of `pulsemodels.gaussian_fwhm`. -/
def gaussian_fwhm (sigma : ℝ) : ℝ :=
  2 * Real.sqrt (2 * Real.log 2) * sigma

/-- Embedding of `pulsemodels.gaussian_fwtm`. -/
def gaussian_fwtm (sigma : ℝ) : ℝ :=
  2 * Real.sqrt (2 * Real.log 10) * sigma

/-- The maximum of a list of reals, as computed by `np.max` (undefined junk
value `0` on the empty list, on which numpy raises). -/
def listMax : List ℝ → ℝ
  | [] => 0
  | a :: l => l.foldl max a

/-- The arithmetic mean of a list of reals, as computed by `np.mean`. -/
def listMean (l : List ℝ) : ℝ := l.sum / l.length

/-- Embedding of `pulsemodels.equivalent_width`:
`sum(amp[amp >= 0]) * |x[0] - x[1]| / np.max(amp)`. -/
def equivalent_width (x amp : List ℝ) : ℝ :=
  let fluxsum := (amp.filter (fun a => decide (0 ≤ a))).sum * |x.getD 0 0 - x.getD 1 0|
  fluxsum / listMax amp

/-- Embedding of `pulsemodels.pbf_isotropic`: the one-sided exponential pulse
broadening function `invtaus * exp(-x * invtaus)` on `x >= 0`, zero elsewhere. -/
def pbf_isotropic (x : List ℝ) (taus : ℝ) : List ℝ :=
  let invtaus : ℝ := 1 / taus
  x.map (fun xi => if 0 ≤ xi then invtaus * Real.exp (-xi * invtaus) else 0)

/-- One sample of the full discrete linear convolution of `A` and `B`. -/
def convFullAt (A B : List ℝ) (k : ℕ) : ℝ :=
  ((List.range (k + 1)).map (fun i => A.getD i 0 * B.getD (k - i) 0)).sum

/-- `scipy.signal.oaconvolve(A, B, mode="same")`: the centred `A.length`-long
slice of the full linear convolution, offset by `(len(B) - 1) // 2`. -/
def oaconvolveSame (A B : List ℝ) : List ℝ :=
  (List.range A.length).map (fun j => convFullAt A B (j + (B.length - 1) / 2))

/-- Embedding of `pulsemodels.scattered_profile`: normed Gaussian convolved
with the isotropic pulse broadening function, normalised by the discrete sum
of the broadening function, plus the offset `dc`. -/
def scattered_profile (x : List ℝ) (fluence center sigma taus dc : ℝ) : List ℝ :=
  let A := gaussian_normed x fluence center sigma
  let B := pbf_isotropic x taus
  (oaconvolveSame A B).map (fun v => dc + v / B.sum)

/-- `np.geomspace(a, b, num=n)`: `n` geometrically spaced points from `a` to
`b`; for `n = 1` numpy returns just `[a]`. -/
def geomspace (a b : ℝ) : ℕ → List ℝ
  | 0 => []
  | 1 => [a]
  | n + 2 => (List.range (n + 2)).map (fun i => a * (b / a) ^ ((i : ℝ) / ((n : ℝ) + 1)))

/-- Elementwise sum of two profiles. -/
def addv (u v : List ℝ) : List ℝ := List.zipWith (fun p q => p + q) u v

/-- The per-frequency profile stack of `pulsemodels.bandintegrated_model`,
summed over the frequency grid (`np.sum(profiles, axis=0)`), before the final
fluence renormalisation. -/
def bandProfileSum (x : List ℝ) (fluence center sigma taus f_lo f_hi : ℝ)
    (nfreq : ℕ) : List ℝ :=
  let band_cfreq : ℝ := 0.5 * (f_lo + f_hi)
  let cfreqs := geomspace f_lo f_hi nfreq
  let profiles := cfreqs.map (fun f =>
    scattered_gaussian_pulse x (fluence * (f / band_cfreq) ^ (-1.5 : ℝ)) center sigma
      (taus * (f / band_cfreq) ^ (-4 : ℝ)) 0)
  profiles.foldl addv (List.replicate x.length 0)

/-- Embedding of `pulsemodels.bandintegrated_model`. -/
def bandintegrated_model (x : List ℝ) (fluence center sigma taus dc f_lo f_hi : ℝ)
    (nfreq : ℕ) : List ℝ :=
  let res := bandProfileSum x fluence center sigma taus f_lo f_hi nfreq
  let tot_fluence : ℝ := res.sum * |x.getD 0 0 - x.getD 1 0|
  res.map (fun v => dc + fluence / tot_fluence * v)

/-- The lmfit result object of a model fit, as consumed by `fit_profile`:
a convergence flag, best-fit parameter values with standard errors, and the
best-fit model curve. -/
structure ModelFit where
  success : Bool
  fluence : ℝ
  err_fluence : ℝ
  sigma : ℝ
  err_sigma : ℝ
  taus : ℝ
  err_taus : ℝ
  taud : ℝ
  best_fit : List ℝ

/-- The unrecoverable error raised by `fit_profile_model` when the
deterministic least-squares fit does not converge
(`raise RuntimeError("Fit did not converge.")`). -/
inductive FitAbort where
  | nonConvergence

/-- An abstract deterministic least-squares backend:
`(fit_range, profile, dm_smear) -> lmfit result`. -/
def Fitter : Type := List ℝ → List ℝ → ℝ → ModelFit

/-- An abstract posterior (emcee) sampling backend, run after and seeded by a
successful least-squares fit. -/
def Sampler : Type := List ℝ → List ℝ → ℝ → ModelFit → ModelFit

/-- Embedding of `fit_frb.fit_profile_model`: run the deterministic fit; if it
did not converge raise the unrecoverable error, otherwise run the posterior
sampler seeded at the least-squares optimum and return its result. -/
def fit_profile_model (fitter : Fitter) (sampler : Sampler)
    (fit_range profile : List ℝ) (dm_smear : ℝ) : Except FitAbort ModelFit :=
  let fitresult_ml := fitter fit_range profile dm_smear
  if fitresult_ml.success then
    Except.ok (sampler fit_range profile dm_smear fitresult_ml)
  else
    Except.error FitAbort.nonConvergence

/-- The `|t| <= 200` window applied to the time axis in `fit_profile`. -/
def window_range (plot_range : List ℝ) : List ℝ :=
  plot_range.filter (fun t => decide (|t| ≤ 200))

/-- The `|t| <= 200` window applied to the profile samples (same boolean mask,
applied through the shared time axis). -/
def window_profile (plot_range profile : List ℝ) : List ℝ :=
  (plot_range.zip profile).filterMap (fun p => if |p.1| ≤ 200 then some p.2 else none)

/-- Baseline removal and peak normalisation of a windowed profile:
subtract the mean, then divide by the maximum of the subtracted data. -/
def normalise_profile (p : List ℝ) : List ℝ :=
  let centred := p.map (fun v => v - listMean p)
  centred.map (fun v => v / listMax centred)

/-- The noise window: normalised profile samples whose time offset satisfies
`|t| > 20`. -/
def noise_samples (fit_range normprof : List ℝ) : List ℝ :=
  (fit_range.zip normprof).filterMap (fun p => if 20 < |p.1| then some p.2 else none)

/-- `np.quantile` with the default linear interpolation: sort, take the value
at fractional index `q * (n - 1)`, interpolating between neighbours. -/
def np_quantile (l : List ℝ) (q : ℝ) : ℝ :=
  let s := List.insertionSort (fun a b => a ≤ b) l
  let h : ℝ := q * ((l.length : ℝ) - 1)
  let i : ℕ := (Int.floor h).toNat
  s.getD i 0 + (h - Int.floor h) * (s.getD (i + 1) 0 - s.getD i 0)

/-- The robust noise estimate of `fit_profile`:
`0.7413 * |quantile(0.75) - quantile(0.25)|` of the noise-window samples. -/
def noise_std (fit_range normprof : List ℝ) : ℝ :=
  let ns := noise_samples fit_range normprof
  0.7413 * |np_quantile ns 0.75 - np_quantile ns 0.25|

/-- The signal-to-noise ratio computed by `fit_profile` for one sub-band:
profile maximum over the robust noise estimate. -/
def profile_snr (plot_range profile : List ℝ) : ℝ :=
  let fit_range := window_range plot_range
  let sub_profile := normalise_profile (window_profile plot_range profile)
  listMax sub_profile / noise_std fit_range sub_profile

/-- One row of the result table assembled by `fit_profile`, before the
post-loop width columns are added. -/
structure SubBandRecord where
  band : ℕ
  cfreq : ℝ
  fluence : ℝ
  err_fluence : ℝ
  sigma : ℝ
  err_sigma : ℝ
  taus : ℝ
  err_taus : ℝ
  taud : ℝ
  fluxsum : ℝ
  weq : ℝ

/-- A result-table row after the post-loop `fwhm`/`fwtm` columns are added. -/
structure WidthRecord extends SubBandRecord where
  fwhm : ℝ
  err_fwhm : ℝ
  fwtm : ℝ
  err_fwtm : ℝ

/-- The row appended for an accepted sub-band: fitted parameters, flux sum of
the non-negative best-fit samples times the sample spacing, and the boxcar
equivalent width. -/
def band_record (iband : ℕ) (cfreq : ℝ) (fit_range : List ℝ) (r : ModelFit) :
    SubBandRecord :=
  let fluxsum :=
    (r.best_fit.filter (fun v => decide (0 ≤ v))).sum * |fit_range.getD 1 0 - fit_range.getD 0 0|
  { band := iband
    cfreq := cfreq
    fluence := r.fluence
    err_fluence := r.err_fluence
    sigma := r.sigma
    err_sigma := r.err_sigma
    taus := r.taus
    err_taus := r.err_taus
    taud := r.taud
    fluxsum := fluxsum
    weq := fluxsum / listMax r.best_fit }

/-- The body of the per-sub-band loop of `fit_frb.fit_profile`: window,
normalise, gate on the signal-to-noise ratio (skip, producing no row, when
`not snr >= 3.7`), otherwise fit and produce exactly one row. -/
def process_band (fitter : Fitter) (sampler : Sampler)
    (plot_range profile : List ℝ) (iband : ℕ) (cfreq dm_smear : ℝ) :
    Except FitAbort (Option SubBandRecord) :=
  let fit_range := window_range plot_range
  let sub_profile := normalise_profile (window_profile plot_range profile)
  let snr := listMax sub_profile / noise_std fit_range sub_profile
  if 3.7 ≤ snr then
    (fit_profile_model fitter sampler fit_range sub_profile dm_smear).map
      (fun r => some (band_record iband cfreq fit_range r))
  else
    Except.ok none

/-- The sub-band centre frequency computed by `fit_profile`:
`freqs[0] + (0.5 + iband) * fscrunch_factor * chan_bw`. -/
def band_cfreq_of (freqs0 chan_bw fscrunch : ℝ) (iband : ℕ) : ℝ :=
  freqs0 + (0.5 + (iband : ℝ)) * fscrunch * chan_bw

/-- The per-sub-band loop of `fit_frb.fit_profile` over the indexed sub-band
profiles.  `dmsmear` abstracts `scatfit.dm.get_dm_smearing` (a module outside
the embedded sources), evaluated at the sub-band edge frequencies.  A skipped
band contributes no row; a fit abort terminates the whole loop. -/
def fit_profile_loop (fitter : Fitter) (sampler : Sampler)
    (dmsmear : ℝ → ℝ → ℝ) (plot_range : List ℝ) (freqs0 chan_bw fscrunch : ℝ) :
    List (ℕ × List ℝ) → Except FitAbort (List SubBandRecord)
  | [] => Except.ok []
  | (i, prof) :: rest =>
    let cfreq := band_cfreq_of freqs0 chan_bw fscrunch i
    let f_lo := cfreq - 0.5 * |chan_bw|
    let f_hi := cfreq + 0.5 * |chan_bw|
    match process_band fitter sampler plot_range prof i cfreq (dmsmear f_lo f_hi) with
    | Except.error e => Except.error e
    | Except.ok none =>
      fit_profile_loop fitter sampler dmsmear plot_range freqs0 chan_bw fscrunch rest
    | Except.ok (some r) =>
      match fit_profile_loop fitter sampler dmsmear plot_range freqs0 chan_bw fscrunch rest with
      | Except.error e => Except.error e
      | Except.ok rs => Except.ok (r :: rs)

/-- The post-loop column computation of `fit_profile`:
`fwhm`, `err_fwhm`, `fwtm`, `err_fwtm` from each row's `sigma`/`err_sigma`. -/
def add_width_columns (r : SubBandRecord) : WidthRecord :=
  { r with
    fwhm := gaussian_fwhm r.sigma
    err_fwhm := gaussian_fwhm r.err_sigma
    fwtm := gaussian_fwtm r.sigma
    err_fwtm := gaussian_fwtm r.err_sigma }

/-- Embedding of `fit_frb.fit_profile`: run the per-sub-band loop over the
indexed sub-band profiles, then add the derived width columns to every row of
the result table. -/
def fit_profile (fitter : Fitter) (sampler : Sampler) (dmsmear : ℝ → ℝ → ℝ)
    (bands : List (List ℝ)) (plot_range : List ℝ) (freqs0 chan_bw fscrunch : ℝ) :
    Except FitAbort (List WidthRecord) :=
  (fit_profile_loop fitter sampler dmsmear plot_range freqs0 chan_bw fscrunch
      bands.enum).map
    (fun rs => rs.map add_width_columns)

/-- The per-sample value of the scattered Gaussian asserted by claim C1 for
the `invK < 10` branch, written with `invsigma = 1/sigma`, `K = taus*invsigma`,
`invK = 1/K`, `y = (xi - center)*invsigma` spelled out, the `argexp >= 300`
elements replaced by `0` before exponentiation. -/
def scattered_gaussian_alt (fluence center sigma taus dc : ℝ) (xi : ℝ) : ℝ :=
  dc + fluence * 0.5 * (1 / (taus * (1 / sigma))) * (1 / sigma) *
    Real.exp
      (if 300 ≤ 0.5 * (1 / (taus * (1 / sigma))) ^ 2 -
            (xi - center) * (1 / sigma) * (1 / (taus * (1 / sigma))) then 0
       else 0.5 * (1 / (taus * (1 / sigma))) ^ 2 -
            (xi - center) * (1 / sigma) * (1 / (taus * (1 / sigma)))) *
    erfc (-((xi - center) * (1 / sigma) - 1 / (taus * (1 / sigma))) / Real.sqrt 2)

/-- The piecewise description of `scattered_gaussian_pulse` asserted by
claim C1: Gaussian fallback when `invK >= 10`, otherwise the clamped
exponentially modified Gaussian formula. -/
def C1Property (x : List ℝ) (fluence center sigma taus dc : ℝ) : Prop :=
  (10 ≤ 1 / (taus * (1 / sigma)) →
    scattered_gaussian_pulse x fluence center sigma taus dc =
      (gaussian_normed x fluence center sigma).map (fun g => dc + g)) ∧
  (¬ 10 ≤ 1 / (taus * (1 / sigma)) →
    scattered_gaussian_pulse x fluence center sigma taus dc =
      x.map (scattered_gaussian_alt fluence center sigma taus dc))

/-- The three-term formula asserted by claim C5 for the analogue-instrumental
model: `dc + A - B + C` with `A`, `B`, `C` the weighted scattered Gaussians
`G(taus)`, `G(taui)`, `G(taud)` at zero offset. -/
def C5Property (x : List ℝ) (fluence center sigma taus taui taud dc : ℝ) : Prop :=
  gaussian_scattered_afb_instrumental x fluence center sigma taus taui taud dc =
    (List.range x.length).map (fun j =>
      dc +
        taus ^ 2 * (scattered_gaussian_pulse x fluence center sigma taus 0).getD j 0 /
          ((taus - taui) * (taus - taud)) -
        taui ^ 2 * (scattered_gaussian_pulse x fluence center sigma taui 0).getD j 0 /
          ((taus - taui) * (taui - taud)) +
        taud ^ 2 * (scattered_gaussian_pulse x fluence center sigma taud 0).getD j 0 /
          ((taus - taud) * (taui - taud)))

/-- The convolution description of `scattered_profile` asserted by claim C6:
`dc` plus the same-length centred convolution of the normed Gaussian with the
one-sided exponential broadening function `(1/taus)*exp(-x/taus)` on `x >= 0`
(zero on `x < 0`), divided by the discrete sum of the broadening function. -/
def C6Property (x : List ℝ) (fluence center sigma taus dc : ℝ) : Prop :=
  scattered_profile x fluence center sigma taus dc =
    (oaconvolveSame (gaussian_normed x fluence center sigma)
        (x.map (fun xi => if 0 ≤ xi then 1 / taus * Real.exp (-xi / taus) else 0))).map
      (fun v =>
        dc + v / (x.map (fun xi => if 0 ≤ xi then 1 / taus * Real.exp (-xi / taus) else 0)).sum)

/-- The exact value of the band-integration model at `nfreq = 1`: the single
geomspace point is `f_lo`, so the result is the analytic scattered Gaussian
evaluated at frequency `f_lo` (with `taus` and `fluence` scaled by
`(f_lo/band_cfreq)^-4` and `(f_lo/band_cfreq)^-1.5`), renormalised to the
input fluence over the measured discrete integral, plus `dc`. -/
def band_model_nfreq_one (x : List ℝ) (fluence center sigma taus dc f_lo f_hi : ℝ) :
    List ℝ :=
  let band_cfreq : ℝ := 0.5 * (f_lo + f_hi)
  let G := scattered_gaussian_pulse x (fluence * (f_lo / band_cfreq) ^ (-1.5 : ℝ))
    center sigma (taus * (f_lo / band_cfreq) ^ (-4 : ℝ)) 0
  G.map (fun v => dc + fluence / (G.sum * |x.getD 0 0 - x.getD 1 0|) * v)

/-- A least-squares backend stub returning a constant lmfit result with the
given convergence flag; used to instantiate the fitting-loop theorems. -/
def constFitter (b : Bool) : Fitter :=
  fun _ _ _ => ⟨b, 0, 0, 0, 0, 0, 0, 0, []⟩

/-- A posterior-sampling backend stub returning the seed fit unchanged. -/
def idSampler : Sampler := fun _ _ _ m => m

/-- A dispersion-smearing stub. -/
def zeroSmear : ℝ → ℝ → ℝ := fun _ _ => 0

end

/-! ### Helper lemmas -/

theorem length_gaussian_normed (x : List ℝ) (fluence center sigma : ℝ) :
    (gaussian_normed x fluence center sigma).length = x.length := by
  simp [gaussian_normed]

theorem length_scattered_gaussian_pulse (x : List ℝ) (fluence center sigma taus dc : ℝ) :
    (scattered_gaussian_pulse x fluence center sigma taus dc).length = x.length := by
  simp only [scattered_gaussian_pulse]
  split
  · simp [gaussian_normed]
  · simp

theorem addv_replicate_zero (l : List ℝ) : addv (List.replicate l.length 0) l = l := by
  induction l with
  | nil => rfl
  | cons a t ih => simpa [addv, List.replicate_succ] using ih

theorem getD_map_of_lt (g : ℝ → ℝ) (l : List ℝ) (j : ℕ) (hj : j < l.length) :
    (l.map g).getD j 0 = g (l.getD j 0) := by
  rw [List.getD_eq_getElem _ _ (by simpa using hj), List.getElem_map,
    List.getD_eq_getElem _ _ hj]

/-! ### Claim C1 -/

/-- Claim C1: for sigma > 0 and taus > 0 the analytic scattered Gaussian pulse
is piecewise defined — for `invK >= 10` it is `dc` plus the normed Gaussian
elementwise, otherwise it is the exponentially modified Gaussian formula with
every exponent argument `argexp >= 300` replaced by `0` before
exponentiation. -/
theorem claim_C1 (x : List ℝ) (fluence center sigma taus dc : ℝ)
    (hsigma : 0 < sigma) (htaus : 0 < taus) :
    C1Property x fluence center sigma taus dc := by
  unfold C1Property
  constructor
  · intro h
    simp only [scattered_gaussian_pulse]
    rw [if_pos h]
  · intro h
    simp only [scattered_gaussian_pulse]
    rw [if_neg h]
    refine List.map_congr_left fun xi _ => ?_
    unfold scattered_gaussian_alt
    ring

/-- Witness for claim C1 at `x = [0]`, `fluence = 1`, `center = 0`,
`sigma = 1`, `taus = 1`, `dc = 0`. -/
theorem claim_C1_witness : (0 : ℝ) < 1 ∧ C1Property [0] 1 0 1 1 0 :=
  ⟨one_pos, claim_C1 [0] 1 0 1 1 0 one_pos one_pos⟩

/-! ### Claim C5 -/

/-- Claim C5: for pairwise distinct `taus`, `taui`, `taud` the
analogue-instrumental model is the three-term combination
`dc + A - B + C` of analytic scattered Gaussians with zero offset
(the proof nowhere uses the distinctness hypotheses: the code applies the same
division formula even at coincident timescales, with no guard). -/
theorem claim_C5 (x : List ℝ) (fluence center sigma taus taui taud dc : ℝ)
    (h1 : taus ≠ taui) (h2 : taus ≠ taud) (h3 : taui ≠ taud) :
    C5Property x fluence center sigma taus taui taud dc := by
  unfold C5Property gaussian_scattered_afb_instrumental
  refine List.map_congr_left fun j hj => ?_
  rw [List.mem_range] at hj
  rw [getD_map_of_lt _ _ _ (by rw [length_scattered_gaussian_pulse]; exact hj),
    getD_map_of_lt _ _ _ (by rw [length_scattered_gaussian_pulse]; exact hj),
    getD_map_of_lt _ _ _ (by rw [length_scattered_gaussian_pulse]; exact hj)]

/-- Witness for claim C5 at `taus = 1`, `taui = 2`, `taud = 3`. -/
theorem claim_C5_witness :
    (1 : ℝ) ≠ 2 ∧ (1 : ℝ) ≠ 3 ∧ (2 : ℝ) ≠ 3 ∧ C5Property [0] 1 0 1 1 2 3 0 :=
  ⟨by norm_num, by norm_num, by norm_num,
    claim_C5 [0] 1 0 1 1 2 3 0 (by norm_num) (by norm_num) (by norm_num)⟩

/-! ### Claim C6 -/

/-- Claim C6: the convolution-form scattered profile is `dc` plus the centred
same-length convolution of the normed Gaussian with the one-sided exponential
pulse-broadening function, divided by the discrete sum of the broadening
function samples. -/
theorem claim_C6 (x : List ℝ) (fluence center sigma taus dc : ℝ)
    (hsigma : 0 < sigma) (htaus : 0 < taus) :
    C6Property x fluence center sigma taus dc := by
  have hpbf : pbf_isotropic x taus =
      x.map (fun xi => if 0 ≤ xi then 1 / taus * Real.exp (-xi / taus) else 0) := by
    unfold pbf_isotropic
    refine List.map_congr_left fun xi _ => ?_
    by_cases h : 0 ≤ xi
    · rw [if_pos h, if_pos h, mul_one_div]
    · rw [if_neg h, if_neg h]
  unfold C6Property scattered_profile
  rw [hpbf]

/-- Witness for claim C6 at `x = [0, 1]`, `sigma = 1`, `taus = 2`. -/
theorem claim_C6_witness : (0 : ℝ) < 1 ∧ (0 : ℝ) < 2 ∧ C6Property [0, 1] 1 0 1 2 0 :=
  ⟨one_pos, two_pos, claim_C6 [0, 1] 1 0 1 2 0 one_pos two_pos⟩

/-! ### Claim C2 -/

theorem bandProfileSum_one (x : List ℝ) (fluence center sigma taus f_lo f_hi : ℝ) :
    bandProfileSum x fluence center sigma taus f_lo f_hi 1 =
      scattered_gaussian_pulse x (fluence * (f_lo / (0.5 * (f_lo + f_hi))) ^ (-1.5 : ℝ))
        center sigma (taus * (f_lo / (0.5 * (f_lo + f_hi))) ^ (-4 : ℝ)) 0 := by
  unfold bandProfileSum
  simp only [geomspace, List.map_cons, List.map_nil, List.foldl_cons, List.foldl_nil]
  rw [← length_scattered_gaussian_pulse x
    (fluence * (f_lo / (0.5 * (f_lo + f_hi))) ^ (-1.5 : ℝ)) center sigma
    (taus * (f_lo / (0.5 * (f_lo + f_hi))) ^ (-4 : ℝ)) 0]
  exact addv_replicate_zero _

/-- Counterexample to claim C2 as stated: at `x = [0, 1]`, `fluence = 1`,
`center = 0`, `sigma = 1`, `taus = 1/1000`, `dc = 0`, `f_lo = 1`, `f_hi = 3`,
the band-integration model with `nfreq = 1` differs from the single-frequency
scattered Gaussian at the nominal parameters: `np.geomspace(f_lo, f_hi, 1)`
returns `[f_lo]`, not the band centre, and the fluence renormalisation divides
by the measured discrete integral, which is not `1` on this grid. -/
theorem claim_C2_counterexample :
    bandintegrated_model [0, 1] 1 0 1 (1 / 1000) 0 1 3 1 ≠
      scattered_gaussian_pulse [0, 1] 1 0 1 (1 / 1000) 0 := by
  intro hEq
  have h4 : ((1 : ℝ) / (0.5 * (1 + 3))) ^ (-4 : ℝ) = 16 := by
    rw [show ((1 : ℝ) / (0.5 * (1 + 3))) = 1 / 2 by norm_num,
      show ((-4 : ℝ)) = ((-4 : ℤ) : ℝ) by norm_num, Real.rpow_intCast]
    norm_num
  have ha : 0 < ((1 : ℝ) / (0.5 * (1 + 3))) ^ (-1.5 : ℝ) :=
    Real.rpow_pos_of_pos (by norm_num) _
  set a : ℝ := ((1 : ℝ) / (0.5 * (1 + 3))) ^ (-1.5 : ℝ) with ha_def
  have hs0 : 0 < Real.sqrt (2 * Real.pi) := Real.sqrt_pos.mpr (by positivity)
  have hs2 : Real.sqrt (2 * Real.pi) ^ 2 = 2 * Real.pi := Real.sq_sqrt (by positivity)
  have hsgt : 2 < Real.sqrt (2 * Real.pi) := by
    nlinarith [Real.pi_gt_three, hs2, hs0]
  set s : ℝ := Real.sqrt (2 * Real.pi) with hs_def
  simp only [bandintegrated_model, bandProfileSum_one, h4, ← ha_def, ← hs_def] at hEq
  norm_num [scattered_gaussian_pulse, gaussian_normed, ← hs_def] at hEq
  have h0 := hEq.1
  have hT : 0 < a / s + a / s * Real.exp (-(1 / 2) : ℝ) := by positivity
  field_simp at h0
  rcases h0 with h0 | h0
  · have hE1c : Real.exp (-1 / 2 : ℝ) < 1 := by
      calc Real.exp (-1 / 2 : ℝ) < Real.exp 0 := Real.exp_lt_exp.mpr (by norm_num)
      _ = 1 := Real.exp_zero
    have hpos : 0 < a * (s - 1 - Real.exp (-1 / 2 : ℝ)) :=
      mul_pos ha (by linarith)
    nlinarith [hpos, h0]
  · exact hs0.ne' h0

/-- Claim C2 as amended: with `nfreq = 1` the band-integration model equals
the analytic scattered Gaussian evaluated at the single geomspace frequency
`f_lo` — with `taus` scaled by `(f_lo/band_cfreq)^-4` and `fluence` by
`(f_lo/band_cfreq)^-1.5` — renormalised by `fluence` over its measured
discrete integral, plus `dc`; not the scattered Gaussian at the band
centre frequency. -/
theorem claim_C2_amended (x : List ℝ) (fluence center sigma taus dc f_lo f_hi : ℝ) :
    bandintegrated_model x fluence center sigma taus dc f_lo f_hi 1 =
      band_model_nfreq_one x fluence center sigma taus dc f_lo f_hi := by
  simp only [bandintegrated_model, band_model_nfreq_one, bandProfileSum_one]

/-! ### Claim C4 -/

/-- Claim C4: for any valid call of the band-integration model (at least one
frequency, nonzero measured profile sum, nonzero sample spacing), the result
minus the offset `dc` has discrete integral exactly equal to the input
fluence. -/
theorem claim_C4 (x : List ℝ) (fluence center sigma taus dc f_lo f_hi : ℝ) (nfreq : ℕ)
    (hn : 1 ≤ nfreq)
    (hsum : (bandProfileSum x fluence center sigma taus f_lo f_hi nfreq).sum ≠ 0)
    (hdx : x.getD 0 0 ≠ x.getD 1 0) :
    ((bandintegrated_model x fluence center sigma taus dc f_lo f_hi nfreq).map
        (fun v => v - dc)).sum * |x.getD 0 0 - x.getD 1 0| = fluence := by
  have habs : |x.getD 0 0 - x.getD 1 0| ≠ 0 := abs_ne_zero.mpr (sub_ne_zero.mpr hdx)
  simp only [bandintegrated_model, List.map_map]
  have hfun : ((fun v => v - dc) ∘ fun v =>
      dc + fluence / ((bandProfileSum x fluence center sigma taus f_lo f_hi nfreq).sum *
        |x.getD 0 0 - x.getD 1 0|) * v) = fun v =>
      fluence / ((bandProfileSum x fluence center sigma taus f_lo f_hi nfreq).sum *
        |x.getD 0 0 - x.getD 1 0|) * v := by
    funext v
    simp only [Function.comp]
    ring
  rw [hfun, List.sum_map_mul_left]
  simp only [List.map_id']
  have hSD : (bandProfileSum x fluence center sigma taus f_lo f_hi nfreq).sum *
      |x.getD 0 0 - x.getD 1 0| ≠ 0 := mul_ne_zero hsum habs
  rw [div_mul_eq_mul_div, div_mul_eq_mul_div, div_eq_iff hSD]
  ring

theorem bandProfileSum_concrete_pos :
    0 < (bandProfileSum [0, 1] 1 0 1 (1 / 1000) 1 3 1).sum := by
  have h4 : ((1 : ℝ) / (0.5 * (1 + 3))) ^ (-4 : ℝ) = 16 := by
    rw [show ((1 : ℝ) / (0.5 * (1 + 3))) = 1 / 2 by norm_num,
      show ((-4 : ℝ)) = ((-4 : ℤ) : ℝ) by norm_num, Real.rpow_intCast]
    norm_num
  have ha : 0 < ((1 : ℝ) / (0.5 * (1 + 3))) ^ (-1.5 : ℝ) :=
    Real.rpow_pos_of_pos (by norm_num) _
  rw [bandProfileSum_one, h4]
  norm_num [scattered_gaussian_pulse, gaussian_normed]
  positivity

/-- Witness for claim C4 at `x = [0, 1]`, `fluence = 1`, `taus = 1/1000`,
`dc = 0`, `f_lo = 1`, `f_hi = 3`, `nfreq = 1`. -/
theorem claim_C4_witness :
    (1 ≤ 1) ∧
    (bandProfileSum [0, 1] 1 0 1 (1 / 1000) 1 3 1).sum ≠ 0 ∧
    (([0, 1] : List ℝ).getD 0 0 ≠ ([0, 1] : List ℝ).getD 1 0) ∧
    ((bandintegrated_model [0, 1] 1 0 1 (1 / 1000) 0 1 3 1).map
        (fun v => v - 0)).sum *
      |([0, 1] : List ℝ).getD 0 0 - ([0, 1] : List ℝ).getD 1 0| = 1 :=
  ⟨le_refl 1, ne_of_gt bandProfileSum_concrete_pos, by norm_num [List.getD],
    claim_C4 [0, 1] 1 0 1 (1 / 1000) 0 1 3 1 (le_refl 1)
      (ne_of_gt bandProfileSum_concrete_pos) (by norm_num [List.getD])⟩

/-! ### Fitting-loop helper lemmas -/

theorem process_band_skip (fitter : Fitter) (sampler : Sampler)
    (plot_range profile : List ℝ) (iband : ℕ) (cfreq dm_smear : ℝ)
    (h : profile_snr plot_range profile < 3.7) :
    process_band fitter sampler plot_range profile iband cfreq dm_smear =
      Except.ok none := by
  simp only [process_band]
  rw [if_neg (not_le.mpr (by simpa [profile_snr] using h))]

theorem process_band_accept (fitter : Fitter) (sampler : Sampler)
    (plot_range profile : List ℝ) (iband : ℕ) (cfreq dm_smear : ℝ)
    (h : 3.7 ≤ profile_snr plot_range profile)
    (hsucc : (fitter (window_range plot_range)
      (normalise_profile (window_profile plot_range profile)) dm_smear).success = true) :
    process_band fitter sampler plot_range profile iband cfreq dm_smear =
      Except.ok (some (band_record iband cfreq (window_range plot_range)
        (sampler (window_range plot_range)
          (normalise_profile (window_profile plot_range profile)) dm_smear
          (fitter (window_range plot_range)
            (normalise_profile (window_profile plot_range profile)) dm_smear)))) := by
  simp only [process_band]
  rw [if_pos (by simpa [profile_snr] using h)]
  simp [fit_profile_model, hsucc, Except.map]

theorem process_band_fail (fitter : Fitter) (sampler : Sampler)
    (plot_range profile : List ℝ) (iband : ℕ) (cfreq dm_smear : ℝ)
    (h : 3.7 ≤ profile_snr plot_range profile)
    (hfail : (fitter (window_range plot_range)
      (normalise_profile (window_profile plot_range profile)) dm_smear).success = false) :
    process_band fitter sampler plot_range profile iband cfreq dm_smear =
      Except.error FitAbort.nonConvergence := by
  simp only [process_band]
  rw [if_pos (by simpa [profile_snr] using h)]
  simp [fit_profile_model, hfail, Except.map]

theorem snr_low_example : profile_snr [0, 30, 60] [1, 0, 9 / 10] < 3.7 := by
  have h1 : |(27 / 22 : ℝ)| = 27 / 22 := abs_of_pos (by norm_num)
  norm_num [profile_snr, window_range, window_profile, normalise_profile, listMean, listMax,
    noise_std, noise_samples, np_quantile, List.insertionSort, List.orderedInsert,
    List.zip, List.zipWith, List.filterMap, List.filter, max_def, abs_le, h1]

theorem snr_high_example : 3.7 ≤ profile_snr [0, 30, 60] [1, 0, 1 / 10] := by
  have h1 : |(3 / 38 : ℝ)| = 3 / 38 := abs_of_pos (by norm_num)
  norm_num [profile_snr, window_range, window_profile, normalise_profile, listMean, listMax,
    noise_std, noise_samples, np_quantile, List.insertionSort, List.orderedInsert,
    List.zip, List.zipWith, List.filterMap, List.filter, max_def, abs_le, h1]

/-! ### Claim C3 -/

/-- Claim C3: in the per-sub-band loop the noise estimate is
`0.7413 * |Q75 - Q25|` of the windowed normalised samples with `|t| > 20`,
the signal estimate is the profile maximum, a band with SNR below 3.7 is
skipped — `ok none` from the loop body, no row appended, no error — and a
band with SNR at least 3.7 proceeds to the fit and, on success, contributes
exactly one row. -/
theorem claim_C3 (fitter : Fitter) (sampler : Sampler) (dmsmear : ℝ → ℝ → ℝ)
    (plot_range profile : List ℝ) (i : ℕ) (cfreq dm_smear freqs0 chan_bw fscrunch : ℝ)
    (rest : List (ℕ × List ℝ)) :
    (noise_std (window_range plot_range)
        (normalise_profile (window_profile plot_range profile)) =
      0.7413 *
        |np_quantile (noise_samples (window_range plot_range)
            (normalise_profile (window_profile plot_range profile))) 0.75 -
          np_quantile (noise_samples (window_range plot_range)
            (normalise_profile (window_profile plot_range profile))) 0.25|) ∧
    (profile_snr plot_range profile =
      listMax (normalise_profile (window_profile plot_range profile)) /
        noise_std (window_range plot_range)
          (normalise_profile (window_profile plot_range profile))) ∧
    (profile_snr plot_range profile < 3.7 →
      process_band fitter sampler plot_range profile i cfreq dm_smear =
        Except.ok none) ∧
    (profile_snr plot_range profile < 3.7 →
      fit_profile_loop fitter sampler dmsmear plot_range freqs0 chan_bw fscrunch
          ((i, profile) :: rest) =
        fit_profile_loop fitter sampler dmsmear plot_range freqs0 chan_bw fscrunch rest) ∧
    (3.7 ≤ profile_snr plot_range profile →
      (fitter (window_range plot_range)
          (normalise_profile (window_profile plot_range profile)) dm_smear).success = true →
      process_band fitter sampler plot_range profile i cfreq dm_smear =
        Except.ok (some (band_record i cfreq (window_range plot_range)
          (sampler (window_range plot_range)
            (normalise_profile (window_profile plot_range profile)) dm_smear
            (fitter (window_range plot_range)
              (normalise_profile (window_profile plot_range profile)) dm_smear))))) ∧
    (3.7 ≤ profile_snr plot_range profile →
      (fitter (window_range plot_range)
          (normalise_profile (window_profile plot_range profile))
          (dmsmear (band_cfreq_of freqs0 chan_bw fscrunch i - 0.5 * |chan_bw|)
            (band_cfreq_of freqs0 chan_bw fscrunch i + 0.5 * |chan_bw|))).success = true →
      fit_profile_loop fitter sampler dmsmear plot_range freqs0 chan_bw fscrunch
          ((i, profile) :: rest) =
        (fit_profile_loop fitter sampler dmsmear plot_range freqs0 chan_bw fscrunch
            rest).map
          (fun rs => band_record i (band_cfreq_of freqs0 chan_bw fscrunch i)
            (window_range plot_range)
            (sampler (window_range plot_range)
              (normalise_profile (window_profile plot_range profile))
              (dmsmear (band_cfreq_of freqs0 chan_bw fscrunch i - 0.5 * |chan_bw|)
                (band_cfreq_of freqs0 chan_bw fscrunch i + 0.5 * |chan_bw|))
              (fitter (window_range plot_range)
                (normalise_profile (window_profile plot_range profile))
                (dmsmear (band_cfreq_of freqs0 chan_bw fscrunch i - 0.5 * |chan_bw|)
                  (band_cfreq_of freqs0 chan_bw fscrunch i + 0.5 * |chan_bw|)))) :: rs)) := by
  refine ⟨rfl, rfl, ?_, ?_, ?_, ?_⟩
  · intro h
    exact process_band_skip fitter sampler plot_range profile i cfreq dm_smear h
  · intro h
    simp only [fit_profile_loop]
    rw [process_band_skip fitter sampler plot_range profile i
      (band_cfreq_of freqs0 chan_bw fscrunch i)
      (dmsmear (band_cfreq_of freqs0 chan_bw fscrunch i - 0.5 * |chan_bw|)
        (band_cfreq_of freqs0 chan_bw fscrunch i + 0.5 * |chan_bw|)) h]
  · intro h hsucc
    exact process_band_accept fitter sampler plot_range profile i cfreq dm_smear h hsucc
  · intro h hsucc
    simp only [fit_profile_loop]
    rw [process_band_accept fitter sampler plot_range profile i
      (band_cfreq_of freqs0 chan_bw fscrunch i)
      (dmsmear (band_cfreq_of freqs0 chan_bw fscrunch i - 0.5 * |chan_bw|)
        (band_cfreq_of freqs0 chan_bw fscrunch i + 0.5 * |chan_bw|)) h hsucc]
    cases hrest : fit_profile_loop fitter sampler dmsmear plot_range freqs0 chan_bw fscrunch
        rest with
    | error e => simp [Except.map]
    | ok rs => simp [Except.map]

/-- Witness for claim C3: the band `[1, 0, 9/10]` on the time axis
`[0, 30, 60]` has SNR about 1.1 and is skipped with no row; the band
`[1, 0, 1/10]` has SNR about 17.1 and, with a succeeding fitter stub,
produces exactly the one expected row. -/
theorem claim_C3_witness :
    profile_snr [0, 30, 60] [1, 0, 9 / 10] < 3.7 ∧
    process_band (constFitter true) idSampler [0, 30, 60] [1, 0, 9 / 10] 0 0 0 =
      Except.ok none ∧
    3.7 ≤ profile_snr [0, 30, 60] [1, 0, 1 / 10] ∧
    process_band (constFitter true) idSampler [0, 30, 60] [1, 0, 1 / 10] 0 0 0 =
      Except.ok (some (band_record 0 0 (window_range [0, 30, 60])
        (idSampler (window_range [0, 30, 60])
          (normalise_profile (window_profile [0, 30, 60] [1, 0, 1 / 10])) 0
          (constFitter true (window_range [0, 30, 60])
            (normalise_profile (window_profile [0, 30, 60] [1, 0, 1 / 10])) 0)))) :=
  ⟨snr_low_example,
    (claim_C3 (constFitter true) idSampler zeroSmear [0, 30, 60] [1, 0, 9 / 10]
      0 0 0 0 0 0 []).2.2.1 snr_low_example,
    snr_high_example,
    (claim_C3 (constFitter true) idSampler zeroSmear [0, 30, 60] [1, 0, 1 / 10]
      0 0 0 0 0 0 []).2.2.2.2.1 snr_high_example rfl⟩

/-! ### Claim C7 -/

/-- Claim C7: a non-converged deterministic least-squares fit raises the
unrecoverable error before any posterior sampling — the result is the error
for every sampling backend — and a gate-passing sub-band whose fit fails
aborts the whole loop with that error: no retry, no bounds relaxation, and no
silent skip. -/
theorem claim_C7 (fitter : Fitter) (sampler : Sampler) (dmsmear : ℝ → ℝ → ℝ)
    (fit_range profile2 plot_range profile : List ℝ)
    (dm_smear freqs0 chan_bw fscrunch : ℝ) (i : ℕ) (rest : List (ℕ × List ℝ)) :
    ((fitter fit_range profile2 dm_smear).success = false →
      ∀ sampler2 : Sampler,
        fit_profile_model fitter sampler2 fit_range profile2 dm_smear =
          Except.error FitAbort.nonConvergence) ∧
    (3.7 ≤ profile_snr plot_range profile →
      (fitter (window_range plot_range)
          (normalise_profile (window_profile plot_range profile))
          (dmsmear (band_cfreq_of freqs0 chan_bw fscrunch i - 0.5 * |chan_bw|)
            (band_cfreq_of freqs0 chan_bw fscrunch i + 0.5 * |chan_bw|))).success = false →
      fit_profile_loop fitter sampler dmsmear plot_range freqs0 chan_bw fscrunch
          ((i, profile) :: rest) = Except.error FitAbort.nonConvergence) := by
  constructor
  · intro h sampler2
    simp [fit_profile_model, h]
  · intro hsnr hfail
    simp only [fit_profile_loop]
    rw [process_band_fail fitter sampler plot_range profile i
      (band_cfreq_of freqs0 chan_bw fscrunch i)
      (dmsmear (band_cfreq_of freqs0 chan_bw fscrunch i - 0.5 * |chan_bw|)
        (band_cfreq_of freqs0 chan_bw fscrunch i + 0.5 * |chan_bw|)) hsnr hfail]

/-- Witness for claim C7: a constant failing fitter stub on the gate-passing
band `[1, 0, 1/10]` aborts the loop with the non-convergence error. -/
theorem claim_C7_witness :
    (constFitter false [] [] 0).success = false ∧
    3.7 ≤ profile_snr [0, 30, 60] [1, 0, 1 / 10] ∧
    fit_profile_model (constFitter false) idSampler [] [] 0 =
      Except.error FitAbort.nonConvergence ∧
    fit_profile_loop (constFitter false) idSampler zeroSmear [0, 30, 60] 0 0 0
      [(0, [1, 0, 1 / 10])] = Except.error FitAbort.nonConvergence :=
  ⟨rfl, snr_high_example,
    (claim_C7 (constFitter false) idSampler zeroSmear [] [] [0, 30, 60] [1, 0, 1 / 10]
      0 0 0 0 0 []).1 rfl idSampler,
    (claim_C7 (constFitter false) idSampler zeroSmear [] [] [0, 30, 60] [1, 0, 1 / 10]
      0 0 0 0 0 []).2 snr_high_example rfl⟩

/-! ### Logarithm bounds for the derived-width constants -/

theorem log_ten_split : Real.log 10 = 3 * Real.log 2 + Real.log (5 / 4) := by
  rw [show (10 : ℝ) = 2 ^ 3 * (5 / 4) by norm_num,
    Real.log_mul (by norm_num) (by norm_num), Real.log_pow]
  push_cast
  ring

theorem log_five_fourths_bounds :
    -(∑ i in Finset.range 16, (-(1 / 4 : ℝ)) ^ (i + 1) / (i + 1)) -
        (1 / 4 : ℝ) ^ (16 + 1) / (1 - 1 / 4) ≤ Real.log (5 / 4) ∧
      Real.log (5 / 4) ≤
        -(∑ i in Finset.range 16, (-(1 / 4 : ℝ)) ^ (i + 1) / (i + 1)) +
          (1 / 4 : ℝ) ^ (16 + 1) / (1 - 1 / 4) := by
  have habs : |(-(1 / 4) : ℝ)| = 1 / 4 := by
    rw [abs_neg]
    exact abs_of_pos (by norm_num)
  have hlt : |(-(1 / 4) : ℝ)| < 1 := by
    rw [habs]
    norm_num
  have hb := Real.abs_log_sub_add_sum_range_le hlt 16
  rw [habs, show ((1 : ℝ) - -(1 / 4)) = 5 / 4 by norm_num] at hb
  have hb2 := abs_le.mp hb
  constructor
  · linarith [hb2.1]
  · linarith [hb2.2]

theorem log_ten_lb : (2.30258504 : ℝ) < Real.log 10 := by
  have h54 := log_five_fourths_bounds.1
  have hl2 := Real.log_two_gt_d9
  have hrat : (2.30258504 : ℝ) < 3 * 0.6931471803 +
      (-(∑ i in Finset.range 16, (-(1 / 4 : ℝ)) ^ (i + 1) / (i + 1)) -
        (1 / 4 : ℝ) ^ (16 + 1) / (1 - 1 / 4)) := by
    norm_num [Finset.sum_range_succ]
  rw [log_ten_split]
  linarith

theorem log_ten_ub : Real.log 10 < (2.3025851 : ℝ) := by
  have h54 := log_five_fourths_bounds.2
  have hu2 := Real.log_two_lt_d9
  have hrat : 3 * 0.6931471808 +
      (-(∑ i in Finset.range 16, (-(1 / 4 : ℝ)) ^ (i + 1) / (i + 1)) +
        (1 / 4 : ℝ) ^ (16 + 1) / (1 - 1 / 4)) < (2.3025851 : ℝ) := by
    norm_num [Finset.sum_range_succ]
  rw [log_ten_split]
  linarith

theorem fwhm_ratio_bounds :
    (2.3548200 : ℝ) < 2 * Real.sqrt (2 * Real.log 2) ∧
      2 * Real.sqrt (2 * Real.log 2) < 2.3548201 := by
  have hl := Real.log_two_gt_d9
  have hu := Real.log_two_lt_d9
  constructor
  · have h : (2.3548200 / 2 : ℝ) < Real.sqrt (2 * Real.log 2) := by
      apply Real.lt_sqrt_of_sq_lt
      nlinarith [hl]
    linarith
  · have h : Real.sqrt (2 * Real.log 2) < 2.3548201 / 2 := by
      rw [Real.sqrt_lt' (by norm_num)]
      nlinarith [hu]
    linarith

theorem fwtm_ratio_bounds :
    (4.2919320 : ℝ) < 2 * Real.sqrt (2 * Real.log 10) ∧
      2 * Real.sqrt (2 * Real.log 10) < 4.2919321 := by
  have hl := log_ten_lb
  have hu := log_ten_ub
  constructor
  · have h : (4.2919320 / 2 : ℝ) < Real.sqrt (2 * Real.log 10) := by
      apply Real.lt_sqrt_of_sq_lt
      nlinarith [hl]
    linarith
  · have h : Real.sqrt (2 * Real.log 10) < 4.2919321 / 2 := by
      rw [Real.sqrt_lt' (by norm_num)]
      nlinarith [hu]
    linarith

/-! ### Claim C8 -/

/-- Claim C8: `gaussian_fwhm` and `gaussian_fwtm` are the exact closed forms
`2*sqrt(2*ln 2)*sigma` and `2*sqrt(2*ln 10)*sigma`; for every `sigma > 0`
their ratios to `sigma` are the fixed constants `2.3548200...` and
`4.2919320...` (bracketed to those decimals), independent of `sigma`; and
every row of the result table returned by `fit_profile` carries `fwhm`,
`err_fwhm`, `fwtm`, `err_fwtm` equal to these functions of its `sigma` and
`err_sigma`. -/
theorem claim_C8 :
    (∀ sigma : ℝ, gaussian_fwhm sigma = 2 * Real.sqrt (2 * Real.log 2) * sigma) ∧
    (∀ sigma : ℝ, gaussian_fwtm sigma = 2 * Real.sqrt (2 * Real.log 10) * sigma) ∧
    (∀ sigma : ℝ, 0 < sigma →
      gaussian_fwhm sigma / sigma = 2 * Real.sqrt (2 * Real.log 2) ∧
      gaussian_fwtm sigma / sigma = 2 * Real.sqrt (2 * Real.log 10)) ∧
    ((2.3548200 : ℝ) < 2 * Real.sqrt (2 * Real.log 2) ∧
      2 * Real.sqrt (2 * Real.log 2) < 2.3548201) ∧
    ((4.2919320 : ℝ) < 2 * Real.sqrt (2 * Real.log 10) ∧
      2 * Real.sqrt (2 * Real.log 10) < 4.2919321) ∧
    (∀ (fitter : Fitter) (sampler : Sampler) (dmsmear : ℝ → ℝ → ℝ)
        (bands : List (List ℝ)) (plot_range : List ℝ) (freqs0 chan_bw fscrunch : ℝ)
        (rows : List WidthRecord),
      fit_profile fitter sampler dmsmear bands plot_range freqs0 chan_bw fscrunch =
        Except.ok rows →
      ∀ r ∈ rows,
        r.fwhm = gaussian_fwhm r.sigma ∧ r.err_fwhm = gaussian_fwhm r.err_sigma ∧
        r.fwtm = gaussian_fwtm r.sigma ∧ r.err_fwtm = gaussian_fwtm r.err_sigma) := by
  refine ⟨fun _ => rfl, fun _ => rfl, ?_, fwhm_ratio_bounds, fwtm_ratio_bounds, ?_⟩
  · intro sigma hs
    constructor
    · rw [gaussian_fwhm, mul_div_assoc, div_self hs.ne', mul_one]
    · rw [gaussian_fwtm, mul_div_assoc, div_self hs.ne', mul_one]
  · intro fitter sampler dmsmear bands plot_range freqs0 chan_bw fscrunch rows h r hr
    unfold fit_profile at h
    cases hl : fit_profile_loop fitter sampler dmsmear plot_range freqs0 chan_bw fscrunch
        bands.enum with
    | error e => rw [hl] at h; exact absurd h (by simp [Except.map])
    | ok rs =>
      rw [hl] at h
      simp only [Except.map, Except.ok.injEq] at h
      subst h
      obtain ⟨c, _, rfl⟩ := List.mem_map.mp hr
      exact ⟨rfl, rfl, rfl, rfl⟩

theorem fit_profile_concrete_run :
    fit_profile (constFitter true) idSampler zeroSmear [[1, 0, 1 / 10]] [0, 30, 60]
        0 0 0 =
      Except.ok [add_width_columns (band_record 0 (band_cfreq_of 0 0 0 0)
        (window_range [0, 30, 60])
        (idSampler (window_range [0, 30, 60])
          (normalise_profile (window_profile [0, 30, 60] [1, 0, 1 / 10]))
          (zeroSmear (band_cfreq_of 0 0 0 0 - 0.5 * |(0 : ℝ)|)
            (band_cfreq_of 0 0 0 0 + 0.5 * |(0 : ℝ)|))
          (constFitter true (window_range [0, 30, 60])
            (normalise_profile (window_profile [0, 30, 60] [1, 0, 1 / 10]))
            (zeroSmear (band_cfreq_of 0 0 0 0 - 0.5 * |(0 : ℝ)|)
              (band_cfreq_of 0 0 0 0 + 0.5 * |(0 : ℝ)|)))))] := by
  unfold fit_profile
  have henum : ([[1, 0, 1 / 10]] : List (List ℝ)).enum = [(0, [1, 0, 1 / 10])] := rfl
  rw [henum]
  simp only [fit_profile_loop]
  rw [process_band_accept (constFitter true) idSampler [0, 30, 60] [1, 0, 1 / 10] 0
    (band_cfreq_of 0 0 0 0)
    (zeroSmear (band_cfreq_of 0 0 0 0 - 0.5 * |(0 : ℝ)|)
      (band_cfreq_of 0 0 0 0 + 0.5 * |(0 : ℝ)|)) snr_high_example rfl]
  simp [Except.map]

/-- Witness for claim C8: the ratio identities at `sigma = 2`, and the width
columns of the single row produced by a concrete run of `fit_profile`. -/
theorem claim_C8_witness :
    ((0 : ℝ) < 2 ∧
      gaussian_fwhm 2 / 2 = 2 * Real.sqrt (2 * Real.log 2) ∧
      gaussian_fwtm 2 / 2 = 2 * Real.sqrt (2 * Real.log 10)) ∧
    ((add_width_columns (band_record 0 (band_cfreq_of 0 0 0 0)
        (window_range [0, 30, 60])
        (idSampler (window_range [0, 30, 60])
          (normalise_profile (window_profile [0, 30, 60] [1, 0, 1 / 10]))
          (zeroSmear (band_cfreq_of 0 0 0 0 - 0.5 * |(0 : ℝ)|)
            (band_cfreq_of 0 0 0 0 + 0.5 * |(0 : ℝ)|))
          (constFitter true (window_range [0, 30, 60])
            (normalise_profile (window_profile [0, 30, 60] [1, 0, 1 / 10]))
            (zeroSmear (band_cfreq_of 0 0 0 0 - 0.5 * |(0 : ℝ)|)
              (band_cfreq_of 0 0 0 0 + 0.5 * |(0 : ℝ)|)))))).fwhm =
      gaussian_fwhm (add_width_columns (band_record 0 (band_cfreq_of 0 0 0 0)
        (window_range [0, 30, 60])
        (idSampler (window_range [0, 30, 60])
          (normalise_profile (window_profile [0, 30, 60] [1, 0, 1 / 10]))
          (zeroSmear (band_cfreq_of 0 0 0 0 - 0.5 * |(0 : ℝ)|)
            (band_cfreq_of 0 0 0 0 + 0.5 * |(0 : ℝ)|))
          (constFitter true (window_range [0, 30, 60])
            (normalise_profile (window_profile [0, 30, 60] [1, 0, 1 / 10]))
            (zeroSmear (band_cfreq_of 0 0 0 0 - 0.5 * |(0 : ℝ)|)
              (band_cfreq_of 0 0 0 0 + 0.5 * |(0 : ℝ)|)))))).sigma) :=
  ⟨⟨two_pos, (claim_C8.2.2.1 2 two_pos).1, (claim_C8.2.2.1 2 two_pos).2⟩,
    (claim_C8.2.2.2.2.2 (constFitter true) idSampler zeroSmear [[1, 0, 1 / 10]]
      [0, 30, 60] 0 0 0 _ fit_profile_concrete_run _
      (List.mem_singleton.mpr rfl)).1⟩

/-! ### List maximum helper lemmas -/

theorem foldl_max_le (l : List ℝ) (b M : ℝ) (hb : b ≤ M) (hl : ∀ a ∈ l, a ≤ M) :
    l.foldl max b ≤ M := by
  induction l generalizing b with
  | nil => simpa using hb
  | cons c t ih =>
    simp only [List.foldl_cons]
    exact ih (max b c) (max_le hb (hl c (List.mem_cons_self c t)))
      (fun a ha => hl a (List.mem_cons_of_mem _ ha))

theorem le_foldl_max (l : List ℝ) (b : ℝ) :
    b ≤ l.foldl max b ∧ ∀ a ∈ l, a ≤ l.foldl max b := by
  induction l generalizing b with
  | nil => simp
  | cons c t ih =>
    simp only [List.foldl_cons]
    obtain ⟨h1, h2⟩ := ih (max b c)
    refine ⟨le_trans (le_max_left b c) h1, ?_⟩
    intro a ha
    rcases List.mem_cons.mp ha with rfl | ha
    · exact le_trans (le_max_right b a) h1
    · exact h2 a ha

theorem listMax_le (l : List ℝ) (M : ℝ) (h : ∀ a ∈ l, a ≤ M) (hne : l ≠ []) :
    listMax l ≤ M := by
  cases l with
  | nil => exact absurd rfl hne
  | cons a t =>
    exact foldl_max_le t a M (h a (List.mem_cons_self a t))
      (fun b hb => h b (List.mem_cons_of_mem _ hb))

theorem le_listMax (l : List ℝ) (a : ℝ) (ha : a ∈ l) : a ≤ listMax l := by
  cases l with
  | nil => simp at ha
  | cons b t =>
    rcases List.mem_cons.mp ha with rfl | ha
    · exact (le_foldl_max t a).1
    · exact (le_foldl_max t b).2 a ha

theorem sum_map_ite_one (p : ℝ → Prop) [DecidablePred p] (l : List ℝ) :
    (l.map (fun v => if p v then (1 : ℝ) else 0)).sum =
      (l.countP (fun v => decide (p v)) : ℕ) := by
  induction l with
  | nil => simp
  | cons a t ih =>
    by_cases h : p a
    · simp only [List.map_cons, List.sum_cons, if_pos h, List.countP_cons, ih, h,
        decide_true_eq_true]
      push_cast
      ring
    · simp [List.countP_cons, h, ih]

/-! ### Claim C9 -/

/-- Counterexample to claim C9 as stated: on the uniform axis `[-1, 0, 1]`
with boxcar width `W = 3/2`, only the sample at `0` lies inside the boxcar,
so the equivalent width is `1`, not `W`: the discrete equivalent width is
quantised to whole sample spacings. -/
theorem claim_C9_counterexample :
    equivalent_width [-1, 0, 1] (boxcar [-1, 0, 1] (3 / 2)) ≠ 3 / 2 := by
  have hbox : boxcar [-1, 0, 1] (3 / 2) = [0, 1, 0] := by
    norm_num [boxcar, abs_le]
  rw [hbox]
  norm_num [equivalent_width, listMax, List.filter, max_def, List.getD]

/-- Claim C9 as amended: on a uniformly spaced axis with spacing `d`, the
equivalent width of a boxcar of width `W` with at least one sample inside it
equals the number of samples with `|t| <= W/2` times `d` — which equals `W`
itself only when `W` is an exact multiple of the spacing aligned with the
grid, not in general. -/
theorem claim_C9_amended (x : List ℝ) (W d : ℝ)
    (hlen : 2 ≤ x.length)
    (hd : 0 < d)
    (hunif : ∀ i : ℕ, i + 1 < x.length → x.getD (i + 1) 0 - x.getD i 0 = d)
    (hin : ∃ xi ∈ x, |xi| ≤ 0.5 * W) :
    equivalent_width x (boxcar x W) =
      (x.countP (fun xi => decide (|xi| ≤ 0.5 * W)) : ℕ) * d := by
  obtain ⟨xi0, hxi0mem, hxi0⟩ := hin
  have h01 : x.getD 1 0 - x.getD 0 0 = d := hunif 0 (by omega)
  have habs : |x.getD 0 0 - x.getD 1 0| = d := by
    rw [abs_sub_comm, h01]
    exact abs_of_pos hd
  have hfilter : (boxcar x W).filter (fun a => decide (0 ≤ a)) = boxcar x W := by
    apply List.filter_eq_self.mpr
    intro a ha
    simp only [boxcar, List.mem_map] at ha
    obtain ⟨xi, _, rfl⟩ := ha
    by_cases h : |xi| ≤ 0.5 * W <;> simp [h]
  have hmem1 : (1 : ℝ) ∈ boxcar x W := by
    simp only [boxcar, List.mem_map]
    exact ⟨xi0, hxi0mem, by rw [if_pos hxi0]⟩
  have hle1 : ∀ a ∈ boxcar x W, a ≤ 1 := by
    intro a ha
    simp only [boxcar, List.mem_map] at ha
    obtain ⟨xi, _, rfl⟩ := ha
    split <;> norm_num
  have hne : boxcar x W ≠ [] := by
    intro h
    rw [h] at hmem1
    simp at hmem1
  have hmax : listMax (boxcar x W) = 1 :=
    le_antisymm (listMax_le _ 1 hle1 hne) (le_listMax _ 1 hmem1)
  have hsum : (boxcar x W).sum =
      (x.countP (fun xi => decide (|xi| ≤ 0.5 * W)) : ℕ) := by
    unfold boxcar
    exact sum_map_ite_one _ x
  unfold equivalent_width
  rw [hfilter, hsum, habs, hmax, div_one]

/-- Witness for claim C9 (amended) at `x = [-1, 0, 1]`, `W = 1`, `d = 1`:
exactly one sample lies inside the boxcar and the equivalent width is `1`. -/
theorem claim_C9_witness :
    2 ≤ ([-1, 0, 1] : List ℝ).length ∧ (0 : ℝ) < 1 ∧
    (∀ i : ℕ, i + 1 < ([-1, 0, 1] : List ℝ).length →
      ([-1, 0, 1] : List ℝ).getD (i + 1) 0 - ([-1, 0, 1] : List ℝ).getD i 0 = 1) ∧
    (∃ xi ∈ ([-1, 0, 1] : List ℝ), |xi| ≤ 0.5 * 1) ∧
    equivalent_width [-1, 0, 1] (boxcar [-1, 0, 1] 1) =
      (([-1, 0, 1] : List ℝ).countP (fun xi => decide (|xi| ≤ 0.5 * 1)) : ℕ) * 1 :=
  ⟨by norm_num, one_pos,
    by
      intro i hi
      rcases i with _ | _ | n
      · norm_num [List.getD]
      · norm_num [List.getD]
      · simp only [List.length_cons, List.length_nil] at hi
        omega,
    ⟨0, by norm_num, by norm_num⟩,
    claim_C9_amended [-1, 0, 1] 1 1 (by norm_num) one_pos
      (by
        intro i hi
        rcases i with _ | _ | n
        · norm_num [List.getD]
        · norm_num [List.getD]
        · simp only [List.length_cons, List.length_nil] at hi
          omega)
      ⟨0, by norm_num, by norm_num⟩⟩
